import Mathlib

/-!
Shallow embedding of `fastify-renderer` (vezaynk/fastify-renderer).

The embedded code lives in
`packages/fastify-renderer/src/node/renderers/react/ReactRenderer.tsx`
(worker stream dispatcher, route table plugin, `stripBasePath`,
`pathToRegexpify`, `routeSortScore`), the `staticRender` function of the
server-side render module, and `src/node/types.ts` (hook and stream event
shapes).  JavaScript strings are modelled as Lean `String`s with the
sequence operations carried out on the underlying character list; JS
`null` is modelled as `Option.none`; a thrown JS exception is modelled as
`Except.error`.  Components of the pipeline whose implementation is not
part of the provided sources (the worker pool library, the sync-mode
worker wrapper, hook unthunking, the early-reply short circuit) are
modelled from the specification and are marked as such in their doc
comments.
-/

namespace FastifyRenderer

/-- The four named output stacks of the render bus
(`src/node/types.ts`, `StreamWorkerEvent.stack`). -/
inductive StackName where
  | head
  | tail
  | content
  | error
deriving DecidableEq, Repr

/-- Embedding of `StreamWorkerEvent` from `src/node/types.ts`:
`{ stack, content: string | null }`.  `none` models JavaScript `null`,
the explicit end-of-stack marker. -/
structure StreamWorkerEvent where
  stack : StackName
  content : Option String
deriving DecidableEq, Repr

/-- JavaScript truthiness of a `string | null` value: `null` and the empty
string are falsy, every other string is truthy. -/
def truthy : Option String → Bool
  | none => false
  | some s => !(s = "")

/-- Embedding of `stripBasePath` from `ReactRenderer.tsx` (lines 475-486):
`startsWith`/`slice` on JS strings, returning `'/'` when the stripped
remainder is empty and the input unchanged when the base is not a prefix. -/
def stripBasePath (fullyQualifiedPath : String) (base : String) : String :=
  if base.data.isPrefixOf fullyQualifiedPath.data then
    if fullyQualifiedPath.data.drop base.data.length = [] then "/"
    else ⟨fullyQualifiedPath.data.drop base.data.length⟩
  else
    fullyQualifiedPath

/-- Character-list core of `pathToRegexpify`: JavaScript
`path.replace('*', ':splat*')` with a string search value replaces only the
first occurrence of `'*'`. -/
def replaceFirstStar : List Char → List Char
  | [] => []
  | c :: cs => if c = '*' then ':' :: 's' :: 'p' :: 'l' :: 'a' :: 't' :: '*' :: cs
               else c :: replaceFirstStar cs

/-- Embedding of `pathToRegexpify` from `routeTableVitePlugin` (line 412):
`(path) => path.replace('*', ':splat*')`. -/
def pathToRegexpify (path : String) : String :=
  ⟨replaceFirstStar path.data⟩

/-- Embedding of `routeSortScore` from `routeTableVitePlugin`
(lines 399-407): wildcard patterns (containing `'*'`) score 2, parameter
patterns (containing `':'` but no `'*'`) score 1, static patterns score 0. -/
def routeSortScore (path : String) : Nat :=
  if path.data.contains '*' then 2
  else if path.data.contains ':' then 1
  else 0

/-! ## Worker stream dispatcher (`workerStreamRender`, lines 90-133) -/

/-- The settlement state of the JavaScript promise created inside
`workerStreamRender`.  A promise settles at most once: once resolved or
rejected, further `resolve`/`reject` calls are no-ops. -/
inductive PromiseState where
  | pending
  | resolved
  | rejected (message : String)
deriving DecidableEq, Repr

/-- First `reject(new Error(content))` wins: no effect on a settled promise. -/
def settleReject (p : PromiseState) (message : String) : PromiseState :=
  match p with
  | .pending => .rejected message
  | p => p

/-- First `resolve()` wins: no effect on a settled promise. -/
def settleResolve (p : PromiseState) : PromiseState :=
  match p with
  | .pending => .resolved
  | p => p

/-- The per-job dispatcher state of `workerStreamRender`:
`expectedStreamEnds` (a set, here an ordered duplicate-free list), the
backing promise, whether the message listener is still attached
(`cleanup` detaches it), and the pushes forwarded to the `RenderBus`. -/
structure DispatchState where
  expected : List StackName
  promise : PromiseState
  active : Bool
  busPushes : List StreamWorkerEvent
deriving DecidableEq, Repr

/-- Dispatch-time seeding:
`new Set(['head', 'tail', 'content', 'error'])`, a pending promise, and an
attached listener (line 96, lines 102-122). -/
def initialDispatchState : DispatchState :=
  { expected := [StackName.head, StackName.tail, StackName.content, StackName.error]
    promise := .pending
    active := true
    busPushes := [] }

/-- Embedding of `messageHandler` (lines 108-121).
`if (stack === 'error' && content) reject(new Error(content))` — note the
JavaScript truthiness test, which skips the empty string; then
`bus.push(stack, content, false)`; then, on an end marker
(`content === null`), `expectedStreamEnds.delete(stack)` and, when the set
empties, `cleanup()` (which detaches the listener) followed by `resolve()`.
A detached listener receives no further messages. -/
def handleMessage (s : DispatchState) (e : StreamWorkerEvent) : DispatchState :=
  if s.active then
    match e.content with
    | some c =>
      { s with
        promise := if e.stack = StackName.error ∧ c ≠ "" then settleReject s.promise c
                   else s.promise
        busPushes := s.busPushes ++ [e] }
    | none =>
      let remaining := s.expected.erase e.stack
      { expected := remaining
        promise := if remaining = [] then settleResolve s.promise else s.promise
        active := if remaining = [] then false else s.active
        busPushes := s.busPushes ++ [e] }
  else s

/-- Running the dispatcher over the sequence of worker messages of one job. -/
def runDispatch (events : List StreamWorkerEvent) : DispatchState :=
  events.foldl handleMessage initialDispatchState

/-! ## Route table (`routeTableVitePlugin`, lines 397-473) -/

/-- Embedding of `RenderableRegistration` from `Renderer.ts`: `renderable`
(module path, the stable identifier), `base`, the optional `pathPattern`
(absent for imperative renderables) and the `isImperative` flag.  The
`layout`/`document` fields play no role in the route table and are
omitted. -/
structure RenderableRegistration where
  renderable : String
  base : String
  pathPattern : Option String
  isImperative : Bool
deriving DecidableEq, Repr

/-- One entry of the sortable route list: a mounted path pattern together
with the renderable module reference (`none` models the `undefined`
renderable produced when `Object.assign` is applied to a failed `find`). -/
structure MountedRoute where
  pathPattern : String
  renderable : Option String
deriving DecidableEq, Repr

/-- Sort key used by the route table: `routeSortScore` of the pattern. -/
def mountedScore (m : MountedRoute) : Nat := routeSortScore m.pathPattern

/-- Stable insertion of `r` behind every already-placed element of equal or
smaller key.  This realizes one step of the ECMAScript stable
`Array.prototype.sort` with comparator `key(a) - key(b)`. -/
def insertByKey (key : α → Nat) (r : α) : List α → List α
  | [] => [r]
  | x :: xs => if key x ≤ key r then x :: insertByKey key r xs else r :: x :: xs

/-- Stable sort by a natural-number key, the embedding of the ECMAScript
stable `Array.prototype.sort` with comparator `key(a) - key(b)`
(line 444). -/
def stableSortByKey (key : α → Nat) (l : List α) : List α :=
  l.foldl (fun acc r => insertByKey key r acc) []

/-- The route table's sort:
`routeableRenderables.sort((a, b) => routeSortScore(a.pathPattern) - routeSortScore(b.pathPattern))`. -/
def sortRoutes (l : List MountedRoute) : List MountedRoute :=
  stableSortByKey mountedScore l

/-- Embedding of the `routeableRenderables` filter of `routeTableVitePlugin`
(lines 431-433): keep the registrations of the requested `base` whose
`pathPattern` is defined (imperative renderables have none). -/
def routeableRenderables (renderables : List RenderableRegistration) (base : String) :
    List MountedRoute :=
  renderables.filterMap fun r =>
    if r.base = base then r.pathPattern.map fun pp => ⟨pp, some r.renderable⟩
    else none

/-- The `if (imperativePathPattern && imperativeRenderable)` push of
lines 435-442: when both query parameters are truthy, the registration
found by `imperativeRenderable` (possibly `undefined`) is copied with its
`pathPattern` overridden to `imperativePathPattern` and appended. -/
def imperativeAugmented (renderables : List RenderableRegistration) (base : String)
    (imperativePathPattern imperativeRenderable : Option String) : List MountedRoute :=
  if truthy imperativePathPattern ∧ truthy imperativeRenderable then
    match imperativePathPattern, imperativeRenderable with
    | some pp, some ir =>
      routeableRenderables renderables base ++
        [⟨pp, (renderables.find? fun r => r.renderable = ir).map fun r => r.renderable⟩]
    | _, _ => routeableRenderables renderables base
  else routeableRenderables renderables base

/-- Embedding of the `load` body of `routeTableVitePlugin`
(lines 421-449): filter, optionally append the imperative entry, sort by
score, and map each entry to the `path-to-regexp`-ified, base-stripped
pattern paired with the renderable reference. -/
def routeTableLoad (renderables : List RenderableRegistration) (base : String)
    (imperativePathPattern imperativeRenderable : Option String) :
    List (String × Option String) :=
  (sortRoutes (imperativeAugmented renderables base imperativePathPattern imperativeRenderable)).map
    fun m => (pathToRegexpify (stripBasePath m.pathPattern base), m.renderable)

/-! ## Hooks and `staticRender` -/

/-- The render tree handed to hook transforms (an opaque React element
tree; only its identity matters to the embedded code). -/
inductive ReactElement where
  | text (s : String)
  | elem (tag : String) (children : List ReactElement)

/-- Embedding of `FastifyRendererHook` from `src/node/types.ts`: every
contribution is declared optional (`heads?`, `tails?`, `transform?`,
`postRenderHeads?`).  The `heads`/`tails` contributions are modelled by the
string they produce. -/
structure FastifyRendererHook where
  name : Option String
  heads : Option String
  tails : Option String
  transform : Option (ReactElement → ReactElement)
  postRenderHeads : Option String

/-- Embedding of the hook-transform loop of `staticRender`
(`const transformers = hooks.map((hook) => require(hook));
for (const hook of transformers) { app = hook.transform(app) }`).
Hooks are applied in registration order; a hook whose `transform` is
`undefined` makes the call `hook.transform(app)` throw a `TypeError`,
modelled as `Except.error`. -/
def applyTransforms (hooks : List FastifyRendererHook) (app : ReactElement) :
    Except String ReactElement :=
  match hooks with
  | [] => .ok app
  | h :: rest =>
    match h.transform with
    | none => .error "TypeError: hook.transform is not a function"
    | some f => applyTransforms rest (f app)

/-- Embedding of `staticRender` (server render module, lines 179-211): the
composed app tree (the `Provider`/`Router`/`Layout`/`Entrypoint` nesting
built from the loaded module, taken here as the opaque input `app`) is run
through every hook's `transform` in registration order and then through
`ReactDOMServer.renderToString`, an opaque capability that may throw. -/
def staticRender (hooks : List FastifyRendererHook) (app : ReactElement)
    (renderToString : ReactElement → Except String String) : Except String String :=
  match applyTransforms hooks app with
  | .error e => .error e
  | .ok transformed => renderToString transformed

/-- Number of non-end chunks pushed to the `content` stack. -/
def contentChunkCount (events : List StreamWorkerEvent) : Nat :=
  (events.filter fun e => e.stack = StackName.content ∧ e.content.isSome).length

/-- Whether an `error` event with non-null content was emitted. -/
def hasErrorEvent (events : List StreamWorkerEvent) : Bool :=
  events.any fun e => e.stack = StackName.error ∧ e.content.isSome

/-- Modelled from the spec: the sync-mode worker wrapper around
`staticRender` is not part of the provided sources.  Per §4.3, sync mode
"invokes the opaque render capability once, producing a complete string;
this string is pushed to `content` as a single chunk followed immediately
by its end marker.  Errors from the render capability surface as an
`error` event; no partial content is emitted." -/
def syncRenderEvents (hooks : List FastifyRendererHook) (app : ReactElement)
    (renderToString : ReactElement → Except String String) : List StreamWorkerEvent :=
  match staticRender hooks app renderToString with
  | .ok s => [⟨StackName.content, some s⟩, ⟨StackName.content, none⟩]
  | .error e => [⟨StackName.error, some e⟩]

/-! ## Worker pool (`resource-pooler` acquire/use/release) -/

/-- The pool's mutable state: the ids of the jobs currently borrowing a
worker handle.  Modelled from the spec (§4.4, §5): the `resource-pooler`
implementation of `createPool`/`use` is not part of the provided sources;
per the spec a job borrows one idle handle, `use` runs the job, and "the
handle is always released back to the pool on both Completed and Failed". -/
structure PoolState where
  running : List Nat
deriving DecidableEq, Repr

/-- The pool starts with no borrowed handles. -/
def initialPool : PoolState := ⟨[]⟩

/-- One observable pool action: a job starts (borrows a handle — enabled
only while fewer than `poolSize` handles are borrowed, otherwise the job
queues at the pool boundary) or settles, completing (`ok = true`) or
failing (`ok = false`). -/
inductive PoolAction where
  | start (job : Nat)
  | settle (job : Nat) (ok : Bool)
deriving DecidableEq, Repr

/-- Modelled from the spec: the acquire/use/release discipline of the pool.
`start` is enabled only when a handle is idle (`running.length < poolSize`)
and the job is not already running; `settle` releases the borrowed handle
back to the pool whether the job completed or failed (`use` releases on all
exit paths).  `none` marks a step that cannot fire. -/
def poolStep (poolSize : Nat) (s : PoolState) : PoolAction → Option PoolState
  | .start j => if s.running.length < poolSize ∧ j ∉ s.running
                then some ⟨s.running ++ [j]⟩ else none
  | .settle j _ok => if j ∈ s.running then some ⟨s.running.erase j⟩ else none

/-- Running a sequence of pool actions; `none` if some action fires while
disabled. -/
def runPool (poolSize : Nat) : PoolState → List PoolAction → Option PoolState
  | s, [] => some s
  | s, a :: rest =>
    match poolStep poolSize s a with
    | none => none
    | some s' => runPool poolSize s' rest

/-! ## Hook unthunking (per-render resolution) -/

/-- Head contribution of the test suite's counter hook at counter value
`n`: `<style>#n \x7b\x7d</style>`. -/
def thunkCounterHeads (n : Nat) : String :=
  "<style>#" ++ Nat.repr n ++ " \x7b\x7d</style>"

/-- Modelled from the spec: hook "unthunking" (§4.2) — "Hooks are resolved
by reference fresh at the start of processing a job batch … this
unthunking must happen once per render, not once per process lifetime."
The counter hook of the test suite (`thunkCounterHook.ts`) closes over a
counter; each unthunking yields a hook instance exposing the current
counter in its `heads` contribution and advances the counter. -/
def unthunkCounterHook (counter : Nat) : FastifyRendererHook × Nat :=
  ({ name := some "thunkCounterHook"
     heads := some (thunkCounterHeads counter)
     tails := none
     transform := none
     postRenderHeads := none }, counter + 1)

/-- Modelled from the spec: one render call unthunks the hook, pushes its
`heads` contribution ahead of the rendered content, and returns the
document together with the advanced counter state. -/
def renderWithCounterHook (counter : Nat) (content : String) : String × Nat :=
  let resolved := unthunkCounterHook counter
  (resolved.1.heads.getD "" ++ content, resolved.2)

/-! ## Early-reply short circuit -/

/-- The part of the Fastify reply visible to the early-reply check. -/
structure Reply where
  sent : Bool
  statusCode : Nat
  body : String
deriving DecidableEq, Repr

/-- Modelled from the spec: the render-phase entry check (§7 Early reply) —
"if an upstream collaborator (pre-processing hook or the handler supplying
props) has already sent a response before the render phase begins, the
pipeline must detect this and perform no bus activity at all"; the
original reply passes through unmodified.  Otherwise the pipeline sends
the rendered document with status 200, pushing the document's stacks. -/
def renderPipeline (reply : Reply) (renderedDocument : String) :
    Reply × List StreamWorkerEvent :=
  if reply.sent then (reply, [])
  else
    ({ sent := true, statusCode := 200, body := renderedDocument },
      [⟨StackName.head, none⟩,
       ⟨StackName.content, some renderedDocument⟩,
       ⟨StackName.content, none⟩,
       ⟨StackName.tail, none⟩])

/-! ## Theorems -/

/-- Helper: replacing the first star of a character list decomposed around
its first `'*'` leaves the suffix, and any star inside it, unchanged. -/
theorem replaceFirstStar_eq_of_not_mem (y : List Char) :
    ∀ x : List Char, '*' ∉ x →
      replaceFirstStar (x ++ '*' :: y) =
        x ++ (':' :: 's' :: 'p' :: 'l' :: 'a' :: 't' :: '*' :: y) := by
  intro x
  induction x with
  | nil => intro _; simp [replaceFirstStar]
  | cons c cs ih =>
    intro hx
    have hc : ¬(c = '*') := by
      intro h
      exact hx (by simp [h])
    have hcs : '*' ∉ cs := fun h => hx (List.mem_cons_of_mem _ h)
    simp only [List.cons_append, replaceFirstStar, if_neg hc]
    exact congrArg (List.cons c) (ih hcs)

/-- C9: `stripBasePath p b` returns `'/'` when `p = b`; drops the leading
`b` when `b` is a proper prefix of `p`; and returns `p` unchanged when `b`
is not a prefix of `p`. -/
theorem c9_stripBasePath_cases (p b : String) :
    (p = b → stripBasePath p b = "/") ∧
    (b.data.isPrefixOf p.data = true → b.data.length < p.data.length →
      stripBasePath p b = String.mk (p.data.drop b.data.length)) ∧
    (b.data.isPrefixOf p.data = false → stripBasePath p b = p) := by
  refine ⟨?_, ?_, ?_⟩
  · rintro rfl
    have h1 : p.data.isPrefixOf p.data = true := by
      simp [List.isPrefixOf_iff_prefix]
    have h2 : p.data.drop p.data.length = [] := List.drop_length _
    unfold stripBasePath
    rw [if_pos h1, if_pos h2]
  · intro hpre hlen
    have hne : ¬(p.data.drop b.data.length = []) := by
      rw [List.drop_eq_nil_iff]
      omega
    unfold stripBasePath
    rw [if_pos hpre, if_neg hne]
  · intro hpre
    have h1 : ¬(b.data.isPrefixOf p.data = true) := by
      simp [hpre]
    unfold stripBasePath
    rw [if_neg h1]

/-- Witness for C9 at concrete inputs. -/
theorem c9_stripBasePath_cases_witness :
    stripBasePath "/app" "/app" = "/" ∧
    stripBasePath "/app/x" "/app" = String.mk ("/app/x".data.drop "/app".data.length) ∧
    stripBasePath "/other" "/app" = "/other" :=
  ⟨(c9_stripBasePath_cases "/app" "/app").1 rfl,
   (c9_stripBasePath_cases "/app/x" "/app").2.1 (by decide) (by decide),
   (c9_stripBasePath_cases "/other" "/app").2.2 (by decide)⟩

/-- C10: `pathToRegexpify` replaces only the first `'*'` of a pattern: on
a pattern split around its first star, the prefix is kept, the first star
becomes `:splat*`, and the whole suffix — including every later star —
passes through unchanged. -/
theorem c10_pathToRegexpify_first_star_only (x y : String) (hx : '*' ∉ x.data) :
    pathToRegexpify ⟨x.data ++ '*' :: y.data⟩ =
      ⟨x.data ++ (':' :: 's' :: 'p' :: 'l' :: 'a' :: 't' :: '*' :: y.data)⟩ := by
  unfold pathToRegexpify
  exact congrArg String.mk (replaceFirstStar_eq_of_not_mem y.data x.data hx)

/-- Witness for C10: `/a/*/b/*` keeps its second star. -/
theorem c10_pathToRegexpify_first_star_only_witness :
    pathToRegexpify ⟨"/a/".data ++ '*' :: "/b/*".data⟩ =
      ⟨"/a/".data ++ (':' :: 's' :: 'p' :: 'l' :: 'a' :: 't' :: '*' :: "/b/*".data)⟩ :=
  c10_pathToRegexpify_first_star_only "/a/" "/b/*" (by decide)

/-- C7: when an upstream collaborator has already sent the reply, the
pipeline performs no bus pushes and the original reply (status and body)
passes through unmodified. -/
theorem c7_early_reply_short_circuit (reply : Reply) (doc : String)
    (h : reply.sent = true) : renderPipeline reply doc = (reply, []) := by
  simp [renderPipeline, h]

/-- Witness for C7 at the test's early reply (`201 hello`). -/
theorem c7_early_reply_short_circuit_witness :
    renderPipeline ⟨true, 201, "hello"⟩ "<p>doc</p>" = (⟨true, 201, "hello"⟩, []) :=
  c7_early_reply_short_circuit ⟨true, 201, "hello"⟩ "<p>doc</p>" rfl

/-- C5: the transform loop of `staticRender` applies hook transforms in
registration order, but a hook whose `transform` is undefined makes the
render throw a `TypeError` instead of being skipped — contradicting the
optional `transform?` declared by `FastifyRendererHook` in
`src/node/types.ts`. -/
theorem c5_transform_not_skipped :
    (∀ (f g : ReactElement → ReactElement) (app : ReactElement),
      applyTransforms
        [⟨none, none, none, some f, none⟩, ⟨none, none, none, some g, none⟩] app =
        Except.ok (g (f app))) ∧
    applyTransforms
      [⟨some "simpleHeadHooks", some "<meta charset=utf-8>", none, none, none⟩]
      (ReactElement.text "app") =
      Except.error "TypeError: hook.transform is not a function" := by
  exact ⟨fun f g app => rfl, rfl⟩

/-- C3: in sync mode the `content` stack receives exactly one chunk
followed immediately by its end marker, or zero content chunks plus an
`error` event — never both a content chunk and an error event. -/
theorem c3_sync_content_atomicity (hooks : List FastifyRendererHook)
    (app : ReactElement) (renderToString : ReactElement → Except String String) :
    ((∃ s, syncRenderEvents hooks app renderToString =
        [⟨StackName.content, some s⟩, ⟨StackName.content, none⟩]) ∨
      (contentChunkCount (syncRenderEvents hooks app renderToString) = 0 ∧
        hasErrorEvent (syncRenderEvents hooks app renderToString) = true)) ∧
    ¬(0 < contentChunkCount (syncRenderEvents hooks app renderToString) ∧
        hasErrorEvent (syncRenderEvents hooks app renderToString) = true) := by
  cases h : staticRender hooks app renderToString with
  | ok s =>
    refine ⟨Or.inl ⟨s, by simp [syncRenderEvents, h]⟩, ?_⟩
    rintro ⟨-, herr⟩
    simp [syncRenderEvents, h, hasErrorEvent] at herr
  | error e =>
    refine ⟨Or.inr ⟨?_, ?_⟩, ?_⟩
    · simp [syncRenderEvents, h, contentChunkCount]
    · simp [syncRenderEvents, h, hasErrorEvent]
    · rintro ⟨hpos, -⟩
      simp [syncRenderEvents, h, contentChunkCount] at hpos

/-- C6: each render call unthunks the counter hook afresh: the first render
emits the style for the current counter, advances the counter by one, and
the immediately following render emits the style for the incremented
counter; at the test's concrete values the two documents visibly differ
(`#0` versus `#1`). -/
theorem c6_unthunk_each_render :
    (∀ (counter : Nat) (content : String),
      (renderWithCounterHook counter content).1 = thunkCounterHeads counter ++ content ∧
      (renderWithCounterHook counter content).2 = counter + 1 ∧
      (renderWithCounterHook (renderWithCounterHook counter content).2 content).1 =
        thunkCounterHeads (counter + 1) ++ content) ∧
    ((renderWithCounterHook 0 "<h1>1</h1>").1 = "<style>#0 \x7b\x7d</style><h1>1</h1>" ∧
      (renderWithCounterHook 1 "<h1>1</h1>").1 = "<style>#1 \x7b\x7d</style><h1>1</h1>" ∧
      (renderWithCounterHook 0 "<h1>1</h1>").1 ≠ (renderWithCounterHook 1 "<h1>1</h1>").1) := by
  refine ⟨fun counter content => ⟨rfl, rfl, rfl⟩, by decide, by decide, by decide⟩

/-- C1 counterexample: an `error` event whose content is the empty string —
non-null, hence covered by the claim — does not reject the job's promise
(JavaScript truthiness skips it), even though every stack is still open. -/
theorem c1_counterexample_empty_error :
    (runDispatch [⟨StackName.error, some ""⟩]).promise = PromiseState.pending ∧
    (runDispatch [⟨StackName.error, some ""⟩]).expected ≠ [] := by
  decide

/-- C1 (amended): the dispatcher seeds the expected-still-open set with
exactly `head`, `tail`, `content`, `error`; every end marker removes its
stack from the set; while the job is live the promise resolves exactly
when an end marker empties the set; and an `error` event with non-empty
content rejects the promise immediately, even while other stacks remain
open. -/
theorem c1_dispatch_lifecycle :
    initialDispatchState.expected =
      [StackName.head, StackName.tail, StackName.content, StackName.error] ∧
    (∀ (s : DispatchState) (e : StreamWorkerEvent), s.active = true → e.content = none →
      (handleMessage s e).expected = s.expected.erase e.stack) ∧
    (∀ (s : DispatchState) (e : StreamWorkerEvent), s.active = true →
      s.promise = PromiseState.pending →
      ((handleMessage s e).promise = PromiseState.resolved ↔
        e.content = none ∧ s.expected.erase e.stack = [])) ∧
    (∀ (s : DispatchState) (e : StreamWorkerEvent) (c : String), s.active = true →
      s.promise = PromiseState.pending → e.stack = StackName.error →
      e.content = some c → c ≠ "" →
      (handleMessage s e).promise = PromiseState.rejected c) := by
  refine ⟨rfl, ?_, ?_, ?_⟩
  · intro s e ha hc
    simp [handleMessage, ha, hc]
  · intro s e ha hp
    cases hc : e.content with
    | none =>
      by_cases hr : s.expected.erase e.stack = []
      · simp [handleMessage, ha, hc, hr, settleResolve, hp]
      · simp [handleMessage, ha, hc, hr, hp]
    | some c =>
      by_cases he : e.stack = StackName.error ∧ c ≠ ""
      · simp [handleMessage, ha, hc, he, settleReject, hp]
      · simp [handleMessage, ha, hc, he, hp]
  · intro s e c ha hp hs hc hne
    simp [handleMessage, ha, hc, hs, hne, settleReject, hp]

/-- Helper: inserting behind a block of elements of key at most the new
element's key passes through the whole block. -/
theorem insertByKey_append_of_le (key : α → Nat) (r : α) :
    ∀ (pre suf : List α), (∀ x ∈ pre, key x ≤ key r) →
      insertByKey key r (pre ++ suf) = pre ++ insertByKey key r suf := by
  intro pre
  induction pre with
  | nil => intro suf _; rfl
  | cons x xs ih =>
    intro suf h
    have hx : key x ≤ key r := h x (by simp)
    simp only [List.cons_append, insertByKey, if_pos hx]
    exact congrArg (List.cons x) (ih suf fun z hz => h z (by simp [hz]))

/-- Helper: inserting ahead of a block of strictly larger keys lands at the
front. -/
theorem insertByKey_front (key : α → Nat) (r : α) :
    ∀ suf : List α, (∀ x ∈ suf, key r < key x) →
      insertByKey key r suf = r :: suf := by
  intro suf h
  cases suf with
  | nil => rfl
  | cons x xs =>
    have hx : ¬(key x ≤ key r) := by
      have := h x (by simp)
      omega
    simp [insertByKey, hx]

/-- Helper: the insertion fold keeps three key segments (0, then 1, then 2)
in registration order. -/
theorem foldl_insert_segments (key : α → Nat) :
    ∀ (l a0 a1 a2 : List α),
      (∀ x ∈ a0, key x = 0) → (∀ x ∈ a1, key x = 1) → (∀ x ∈ a2, key x = 2) →
      (∀ x ∈ l, key x ≤ 2) →
      List.foldl (fun acc r => insertByKey key r acc) (a0 ++ a1 ++ a2) l =
        (a0 ++ l.filter fun x => key x == 0) ++
        (a1 ++ l.filter fun x => key x == 1) ++
        (a2 ++ l.filter fun x => key x == 2) := by
  intro l
  induction l with
  | nil => intro a0 a1 a2 _ _ _ _; simp
  | cons r l ih =>
    intro a0 a1 a2 h0 h1 h2 hle
    have hr : key r ≤ 2 := hle r (by simp)
    have hrest : ∀ x ∈ l, key x ≤ 2 := fun x hx => hle x (by simp [hx])
    rw [List.foldl_cons]
    have h3 : key r = 0 ∨ key r = 1 ∨ key r = 2 := by omega
    rcases h3 with h | h | h
    · have e1 : insertByKey key r (a0 ++ a1 ++ a2) = a0 ++ [r] ++ a1 ++ a2 := by
        rw [List.append_assoc a0 a1 a2,
          insertByKey_append_of_le key r a0 (a1 ++ a2)
            (fun x hx => by rw [h0 x hx, h]),
          insertByKey_front key r (a1 ++ a2) ?_]
        · simp
        · intro x hx
          rcases List.mem_append.mp hx with hx' | hx'
          · have := h1 x hx'; omega
          · have := h2 x hx'; omega
      rw [e1, ih (a0 ++ [r]) a1 a2 ?_ h1 h2 hrest]
      · simp [List.filter_cons, h]
      · intro x hx
        rcases List.mem_append.mp hx with hx' | hx'
        · exact h0 x hx'
        · simp only [List.mem_singleton] at hx'
          rw [hx', h]
    · have e1 : insertByKey key r (a0 ++ a1 ++ a2) = a0 ++ (a1 ++ [r]) ++ a2 := by
        rw [insertByKey_append_of_le key r (a0 ++ a1) a2 ?_,
          insertByKey_front key r a2 (fun x hx => by have := h2 x hx; omega)]
        · simp
        · intro x hx
          rcases List.mem_append.mp hx with hx' | hx'
          · have := h0 x hx'; omega
          · have := h1 x hx'; omega
      rw [e1, ih a0 (a1 ++ [r]) a2 h0 ?_ h2 hrest]
      · simp [List.filter_cons, h]
      · intro x hx
        rcases List.mem_append.mp hx with hx' | hx'
        · exact h1 x hx'
        · simp only [List.mem_singleton] at hx'
          rw [hx', h]
    · have e1 : insertByKey key r (a0 ++ a1 ++ a2) = a0 ++ a1 ++ (a2 ++ [r]) := by
        have := insertByKey_append_of_le key r (a0 ++ a1 ++ a2) [] ?_
        · simpa [insertByKey] using this
        · intro x hx
          rcases List.mem_append.mp hx with hx' | hx'
          · rcases List.mem_append.mp hx' with hx'' | hx''
            · have := h0 x hx''; omega
            · have := h1 x hx''; omega
          · have := h2 x hx'; omega
      rw [e1, ih a0 a1 (a2 ++ [r]) h0 h1 ?_ hrest]
      · simp [List.filter_cons, h]
      · intro x hx
        rcases List.mem_append.mp hx with hx' | hx'
        · exact h2 x hx'
        · simp only [List.mem_singleton] at hx'
          rw [hx', h]

/-- Helper: `routeSortScore` only takes the values 0, 1 and 2. -/
theorem routeSortScore_le_two (p : String) : routeSortScore p ≤ 2 := by
  unfold routeSortScore
  split
  · omega
  · split <;> omega

/-- Helper: the route sort is exactly the three score classes concatenated,
each in registration order. -/
theorem sortRoutes_eq_segments (l : List MountedRoute) :
    sortRoutes l =
      (l.filter fun m => mountedScore m == 0) ++
      (l.filter fun m => mountedScore m == 1) ++
      (l.filter fun m => mountedScore m == 2) := by
  have h := foldl_insert_segments mountedScore l [] [] []
    (by simp) (by simp) (by simp)
    (fun x _ => routeSortScore_le_two x.pathPattern)
  simpa [sortRoutes, stableSortByKey] using h

/-- Helper: the sorted route list is a rearrangement — membership is
preserved. -/
theorem mem_of_mem_sortRoutes {m : MountedRoute} {l : List MountedRoute}
    (h : m ∈ sortRoutes l) : m ∈ l := by
  rw [sortRoutes_eq_segments] at h
  rcases List.mem_append.mp h with h' | h'
  · rcases List.mem_append.mp h' with h'' | h''
    · exact List.mem_of_mem_filter h''
    · exact List.mem_of_mem_filter h''
  · exact List.mem_of_mem_filter h'

/-- Helper: score 0 is exactly the static class (no `'*'`, no `':'`). -/
theorem score_eq_zero_iff (m : MountedRoute) :
    (mountedScore m == 0) =
      (!m.pathPattern.data.contains '*' && !m.pathPattern.data.contains ':') := by
  unfold mountedScore routeSortScore
  cases h1 : m.pathPattern.data.contains '*' <;>
    cases h2 : m.pathPattern.data.contains ':' <;> simp [h1, h2]

/-- Helper: score 1 is exactly the single-parameter class (`':'` but no
`'*'`). -/
theorem score_eq_one_iff (m : MountedRoute) :
    (mountedScore m == 1) =
      (!m.pathPattern.data.contains '*' && m.pathPattern.data.contains ':') := by
  unfold mountedScore routeSortScore
  cases h1 : m.pathPattern.data.contains '*' <;>
    cases h2 : m.pathPattern.data.contains ':' <;> simp [h1, h2]

/-- Helper: score 2 is exactly the wildcard class (contains `'*'`). -/
theorem score_eq_two_iff (m : MountedRoute) :
    (mountedScore m == 2) = m.pathPattern.data.contains '*' := by
  unfold mountedScore routeSortScore
  cases h1 : m.pathPattern.data.contains '*' <;>
    cases h2 : m.pathPattern.data.contains ':' <;> simp [h1, h2]

/-- C2: the route sort places every static pattern (no `':'`, no `'*'`)
before every single-parameter pattern (`':'` but no `'*'`), before every
wildcard pattern (contains `'*'`), with ties keeping registration order —
the sorted list is exactly the three classes concatenated, each in input
order; in particular `/a`, `/:id`, `/*` keep that order. -/
theorem c2_route_precedence :
    (∀ l : List MountedRoute,
      sortRoutes l =
        (l.filter fun m =>
          !m.pathPattern.data.contains '*' && !m.pathPattern.data.contains ':') ++
        (l.filter fun m =>
          !m.pathPattern.data.contains '*' && m.pathPattern.data.contains ':') ++
        (l.filter fun m => m.pathPattern.data.contains '*')) ∧
    sortRoutes [⟨"/a", some "a"⟩, ⟨"/:id", some "id"⟩, ⟨"/*", some "splat"⟩] =
      [⟨"/a", some "a"⟩, ⟨"/:id", some "id"⟩, ⟨"/*", some "splat"⟩] := by
  constructor
  · intro l
    rw [sortRoutes_eq_segments,
      List.filter_congr fun m _ => score_eq_zero_iff m,
      List.filter_congr fun m _ => score_eq_one_iff m,
      List.filter_congr fun m _ => score_eq_two_iff m]
  · decide

/-- Helper: without truthy imperative query parameters the augmentation is
the identity. -/
theorem imperativeAugmented_of_not_truthy
    (renderables : List RenderableRegistration) (base : String)
    (ipp ir : Option String) (h : ¬(truthy ipp = true ∧ truthy ir = true)) :
    imperativeAugmented renderables base ipp ir =
      routeableRenderables renderables base := by
  unfold imperativeAugmented
  rw [if_neg h]

/-- C8 counterexample: a renderable registered without a `pathPattern`
(imperative) does appear in the route table generated with
`imperativePathPattern`/`imperativeRenderable` query parameters. -/
theorem c8_counterexample_imperative_included :
    (("/imp", some "Imp") : String × Option String) ∈
      routeTableLoad [⟨"Imp", "", none, true⟩] "" (some "/imp") (some "Imp") := by
  decide

/-- C8 (amended): in every route table generated without truthy imperative
query parameters, every entry stems from a registration of the requested
base whose `pathPattern` is defined — renderables registered without a
`pathPattern` contribute no entry; only the imperative-parameterized table
generated for an imperative render's own hydration includes that
renderable, under the explicitly supplied pattern. -/
theorem c8_imperative_excluded (renderables : List RenderableRegistration)
    (base : String) (ipp ir : Option String)
    (h : ¬(truthy ipp = true ∧ truthy ir = true)) :
    ∀ entry ∈ routeTableLoad renderables base ipp ir,
      ∃ r ∈ renderables, ∃ pp, r.pathPattern = some pp ∧ r.base = base ∧
        entry = (pathToRegexpify (stripBasePath pp base), some r.renderable) := by
  intro entry hentry
  unfold routeTableLoad at hentry
  rw [imperativeAugmented_of_not_truthy renderables base ipp ir h] at hentry
  simp only [List.mem_map] at hentry
  obtain ⟨m, hm, hentry⟩ := hentry
  have hm' := mem_of_mem_sortRoutes hm
  unfold routeableRenderables at hm'
  simp only [List.mem_filterMap] at hm'
  obtain ⟨r, hr, hcond⟩ := hm'
  by_cases hb : r.base = base
  · rw [if_pos hb] at hcond
    cases hp : r.pathPattern with
    | none => rw [hp] at hcond; cases hcond
    | some pp =>
      rw [hp] at hcond
      simp only [Option.map_some'] at hcond
      obtain rfl := Option.some.inj hcond
      exact ⟨r, hr, pp, hp, hb, hentry.symm⟩
  · rw [if_neg hb] at hcond
    cases hcond

/-- Witness for C8 at a concrete mounted registration. -/
theorem c8_imperative_excluded_witness :
    ∃ r ∈ [(⟨"A", "", some "/a", false⟩ : RenderableRegistration)],
      ∃ pp, r.pathPattern = some pp ∧ r.base = "" ∧
        (("/a", some "A") : String × Option String) =
          (pathToRegexpify (stripBasePath pp ""), some r.renderable) :=
  c8_imperative_excluded [⟨"A", "", some "/a", false⟩] "" none none
    (by decide) ("/a", some "A") (by decide)

/-- Helper: every state reached by an admissible action sequence from a
state within capacity stays within capacity. -/
theorem runPool_borrowed_le (poolSize : Nat) :
    ∀ (acts : List PoolAction) (s0 s : PoolState),
      s0.running.length ≤ poolSize → runPool poolSize s0 acts = some s →
      s.running.length ≤ poolSize := by
  intro acts
  induction acts with
  | nil =>
    intro s0 s h hrun
    simp only [runPool, Option.some.injEq] at hrun
    exact hrun ▸ h
  | cons a rest ih =>
    intro s0 s h hrun
    simp only [runPool] at hrun
    cases hstep : poolStep poolSize s0 a with
    | none => rw [hstep] at hrun; cases hrun
    | some s1 =>
      rw [hstep] at hrun
      refine ih s1 s ?_ hrun
      cases a with
      | start j =>
        simp only [poolStep] at hstep
        by_cases hc : s0.running.length < poolSize ∧ j ∉ s0.running
        · rw [if_pos hc] at hstep
          obtain rfl := Option.some.inj hstep
          simpa using hc.1
        · rw [if_neg hc] at hstep; cases hstep
      | settle j ok =>
        simp only [poolStep] at hstep
        by_cases hc : j ∈ s0.running
        · rw [if_pos hc] at hstep
          obtain rfl := Option.some.inj hstep
          exact le_trans (List.Sublist.length_le (List.erase_sublist j s0.running)) h
        · rw [if_neg hc] at hstep; cases hstep

/-- C4: against a pool of size `poolSize`, every admissible action sequence
keeps the number of simultaneously borrowed handles at most `poolSize`,
and every settle step — completion and failure alike — releases exactly
its borrowed handle back to the pool. -/
theorem c4_pool_bound_and_release (poolSize : Nat) :
    (∀ (acts : List PoolAction) (s : PoolState),
      runPool poolSize initialPool acts = some s →
      s.running.length ≤ poolSize) ∧
    (∀ (s : PoolState) (j : Nat) (ok : Bool) (s' : PoolState),
      poolStep poolSize s (PoolAction.settle j ok) = some s' →
      s'.running.length + 1 = s.running.length) := by
  constructor
  · intro acts s h
    exact runPool_borrowed_le poolSize acts initialPool s (by simp [initialPool]) h
  · intro s j ok s' h
    simp only [poolStep] at h
    by_cases hc : j ∈ s.running
    · rw [if_pos hc] at h
      obtain rfl := Option.some.inj h
      have hpos : 0 < s.running.length := List.length_pos_of_mem hc
      have herase := List.length_erase_of_mem hc
      simp only [herase]
      omega
    · rw [if_neg hc] at h
      cases h

/-- Witness for C4: with a pool of size one, a failing job's handle is
released and a later job can borrow it. -/
theorem c4_pool_bound_and_release_witness :
    ((⟨[1]⟩ : PoolState).running.length ≤ 1) ∧
    ((⟨[]⟩ : PoolState).running.length + 1 = (⟨[0]⟩ : PoolState).running.length) :=
  ⟨(c4_pool_bound_and_release 1).1
      [PoolAction.start 0, PoolAction.settle 0 false, PoolAction.start 1] ⟨[1]⟩
      (by decide),
    (c4_pool_bound_and_release 1).2 ⟨[0]⟩ 0 false ⟨[]⟩ (by decide)⟩

/-- Witness for C1 at a concrete rejecting event. -/
theorem c1_dispatch_lifecycle_witness :
    (handleMessage initialDispatchState ⟨StackName.error, some "boom"⟩).promise =
      PromiseState.rejected "boom" :=
  c1_dispatch_lifecycle.2.2.2 initialDispatchState ⟨StackName.error, some "boom"⟩
    "boom" rfl rfl rfl rfl (by decide)

end FastifyRenderer
